import Mathlib

set_option maxHeartbeats 1000000

/-
Shallow embedding of the embedded Asteroids game (src/stephen_game.c).

The game's mutable statics (struct stephen_game_t game, asteroids[][],
shots[], gRechargingWeapon, asteroidSpawnProbability) become one record
GState.  The cooperative scheduler's pending-task pool (Task_Schedule /
Task_Queue / Task_Remove of the embedded-software library) is modelled as
a set of task identities `tasks : TaskId → Bool`; Task_Remove is removal
from the set, a no-op when the task is absent, matching the scheduler
contract.  Rendering calls (Game_CharXY, Game_SetColor, Game_Printf,
Game_Bell, cursor control) have no effect on game state and are omitted.

Atomicity: execution is single threaded and cooperative; a callback runs
to completion.  A task posted with Task_Queue from inside a callback runs
after that callback finishes and before the next external event.  We fold
the state-relevant queued followers (UpdateHealth's game-over check after
a collision, UpdateScore's difficulty update after a score increment)
into the callback that queued them; the queued display-only tasks
(UpdateShotCooldown, UpdateDifficulty and the drawing part of the others)
have no state effect.  Within one callback nothing runs between the queue
call and the callback's end that touches the queued task's state, so this
is observationally equivalent.

The asteroid grid: the C declaration is asteroids[MAP_WIDTH-1][MAP_HEIGHT-1]
while the loops index column MAP_WIDTH-1 and row MAP_HEIGHT-1 as well, an
out-of-bounds access analysed separately below (bounded embedding, C10).
The round-level model here uses the idealised total grid the loops assume,
indexed by plain naturals.
-/

namespace AsteroidsGame

/-- MAP_WIDTH: width of the playable map. -/
def mapWidth : Nat := 60

/-- MAP_HEIGHT: height of the playable map. -/
def mapHeight : Nat := 18

/-- STARTING_DIFFICULTY: default starting difficulty (1/spawn chance). -/
def startingDifficulty : Nat := 24

/-- One entry of the shot pool (char_object_t): status 0/1, position. -/
structure Shot where
  status : Bool
  x : Nat
  y : Nat
deriving DecidableEq

/-- struct stephen_game_t: ship position, glyph, health, cooldown, counters. -/
structure GameRec where
  x : Nat
  y : Nat
  c : Char
  health : Nat
  shotCooldown : Nat
  score : Int
  shotsFired : Int
deriving DecidableEq

/-- Identity of a schedulable task of the round (the function pointer and,
for MoveRightShot, the shot-slot argument that Task_Remove matches on). -/
inductive TaskId where
  | genShift
  | incScore
  | moveShot (i : Fin 5)
  | decCooldown
  | resetColor
deriving DecidableEq

/-- The game's whole mutable state, plus the scheduler's pending-task set,
the registered-receiver flag, and an instrumentation counter of
Game_GameOver calls in the current round. -/
structure GState where
  game : GameRec
  asteroids : Nat → Nat → Nat
  shots : Fin 5 → Shot
  tasks : TaskId → Bool
  receiverRegistered : Bool
  gRecharging : Bool
  spawnProb : Nat
  gameOverCount : Nat

/-- Task_Schedule / Task_Queue: the task becomes pending. -/
def tAdd (t : TaskId) (ts : TaskId → Bool) : TaskId → Bool :=
  fun u => if u = t then true else ts u

/-- Task_Remove: cancel by identity; a no-op when the task is not pending. -/
def tRemove (t : TaskId) (ts : TaskId → Bool) : TaskId → Bool :=
  fun u => if u = t then false else ts u

/-- Write one shot-pool slot. -/
def sUpdate (i : Fin 5) (v : Shot) (sh : Fin 5 → Shot) : Fin 5 → Shot :=
  fun j => if j = i then v else sh j

/-- Write one asteroid-grid cell. -/
def gSet (cx cy v : Nat) (g : Nat → Nat → Nat) : Nat → Nat → Nat :=
  fun c r => if c = cx ∧ r = cy then v else g c r

/-- The difficulty table of UpdateScore in src/stephen_game.c: at these exact
scores asteroidSpawnProbability is assigned STARTING_DIFFICULTY - k.
(src/unnamed/part_000 carries an older variant of the same table with
thresholds 35,55,65,80,100,120,140,160,180,200; the named source file is
the authority.) -/
def newSpawnProb (sc : Int) (p : Nat) : Nat :=
  if sc = 25 then startingDifficulty - 1
  else if sc = 35 then startingDifficulty - 2
  else if sc = 45 then startingDifficulty - 3
  else if sc = 70 then startingDifficulty - 4
  else if sc = 90 then startingDifficulty - 5
  else if sc = 100 then startingDifficulty - 6
  else if sc = 110 then startingDifficulty - 7
  else if sc = 120 then startingDifficulty - 8
  else if sc = 130 then startingDifficulty - 9
  else if sc = 150 then startingDifficulty - 10
  else p

/-- UpdateScore: prints the score, then runs the difficulty table (the
queued UpdateDifficulty is display only). -/
def updateScoreRun (s : GState) : GState :=
  { s with spawnProb := newSpawnProb s.game.score s.spawnProb }

/-- Number of difficulty thresholds already reached by a score. -/
def tier (sc : Int) : Nat :=
  if sc < 25 then 0
  else if sc < 35 then 1
  else if sc < 45 then 2
  else if sc < 70 then 3
  else if sc < 90 then 4
  else if sc < 100 then 5
  else if sc < 110 then 6
  else if sc < 120 then 7
  else if sc < 130 then 8
  else if sc < 150 then 9
  else 10

/-- GameOver: removes the GenerateAndShift and IncreaseScore tasks, then for
every active shot slot sets it idle and removes its MoveRightShot task
(the loop touches each slot independently, so it is written pointwise),
prints the final score, unregisters the receiver and calls Game_GameOver
(counted by gameOverCount).  Note: the DecreaseCooldown task is NOT
removed here. -/
def gameOver (s : GState) : GState :=
  { s with
    tasks := fun t =>
      match t with
      | TaskId.genShift => false
      | TaskId.incScore => false
      | TaskId.moveShot i =>
          if (s.shots i).status = true then false else s.tasks (TaskId.moveShot i)
      | TaskId.decCooldown => s.tasks TaskId.decCooldown
      | TaskId.resetColor => s.tasks TaskId.resetColor,
    shots := fun i =>
      if (s.shots i).status = true then { s.shots i with status := false } else s.shots i,
    receiverRegistered := false,
    gameOverCount := s.gameOverCount + 1 }

/-- UpdateHealth: display, and when health is 0 it calls GameOver. -/
def updateHealthRun (s : GState) : GState :=
  if s.game.health = 0 then gameOver s else s

/-- The collision resolution shared (textually duplicated in the source) by
ShiftAsteroidColumns and the four move handlers: destroy the asteroid,
alert, decrement health with a floor at 0, queue UpdateHealth (run here,
see the atomicity note), schedule the one-shot ResetScreenColor. -/
def collideAt (cx cy : Nat) (s : GState) : GState :=
  let s1 := { s with
    asteroids := gSet cx cy 0 s.asteroids,
    game := { s.game with
      health := if 0 < s.game.health then s.game.health - 1 else s.game.health },
    tasks := tAdd TaskId.resetColor s.tasks }
  updateHealthRun s1

/-- MoveRight: guarded at x < MAP_WIDTH - 3; on a legal move, step and test
the destination cell for an asteroid. -/
def moveRight (s : GState) : GState :=
  if s.game.x < mapWidth - 3 then
    let s1 := { s with game := { s.game with x := s.game.x + 1 } }
    if s1.asteroids s1.game.x s1.game.y ≠ 0 then collideAt s1.game.x s1.game.y s1 else s1
  else s

/-- MoveLeft: guarded at x > 1. -/
def moveLeft (s : GState) : GState :=
  if 1 < s.game.x then
    let s1 := { s with game := { s.game with x := s.game.x - 1 } }
    if s1.asteroids s1.game.x s1.game.y ≠ 0 then collideAt s1.game.x s1.game.y s1 else s1
  else s

/-- MoveDown: guarded at y < MAP_HEIGHT - 1. -/
def moveDown (s : GState) : GState :=
  if s.game.y < mapHeight - 1 then
    let s1 := { s with game := { s.game with y := s.game.y + 1 } }
    if s1.asteroids s1.game.x s1.game.y ≠ 0 then collideAt s1.game.x s1.game.y s1 else s1
  else s

/-- MoveUp: guarded at y > 1. -/
def moveUp (s : GState) : GState :=
  if 1 < s.game.y then
    let s1 := { s with game := { s.game with y := s.game.y - 1 } }
    if s1.asteroids s1.game.x s1.game.y ≠ 0 then collideAt s1.game.x s1.game.y s1 else s1
  else s

/-- The slot-search loop of Shoot: for i = 0..MAX_SHOTS-1, every idle slot
overwrites the candidate pointer, so the result is the highest-indexed
idle slot (or none). -/
def findSlot (sh : Fin 5 → Shot) : Option (Fin 5) :=
  (List.finRange 5).foldl (fun acc i => if (sh i).status = false then some i else acc) none

/-- Shoot: needs cooldown ≥ 3 and a free slot; then consume 3 cooldown,
activate the slot one cell ahead of the ship, count the shot, queue the
(display-only) cooldown redraw, schedule the slot's MoveRightShot task,
and lazily schedule the DecreaseCooldown recharge task. -/
def shoot (s : GState) : GState :=
  if 3 ≤ s.game.shotCooldown then
    match findSlot s.shots with
    | some i =>
      let s1 := { s with
        game := { s.game with
          shotCooldown := s.game.shotCooldown - 3,
          shotsFired := s.game.shotsFired + 1 },
        shots := sUpdate i { status := true, x := s.game.x + 1, y := s.game.y } s.shots,
        tasks := tAdd (TaskId.moveShot i) s.tasks }
      if s1.gRecharging = false then
        { s1 with gRecharging := true, tasks := tAdd TaskId.decCooldown s1.tasks }
      else s1
    | none => s
  else s

/-- MoveRightShot for slot i: advance one cell unless at the far boundary;
on an asteroid hit destroy it, release the slot, remove the task, score;
at the boundary release the slot and remove the task. -/
def moveRightShot (i : Fin 5) (s : GState) : GState :=
  let o := s.shots i
  if o.x < mapWidth - 2 then
    let o1 : Shot := { o with x := o.x + 1 }
    if s.asteroids o1.x o1.y ≠ 0 then
      updateScoreRun { s with
        asteroids := gSet o1.x o1.y 0 s.asteroids,
        shots := sUpdate i { o1 with status := false } s.shots,
        game := { s.game with score := s.game.score + 1 },
        tasks := tRemove (TaskId.moveShot i) s.tasks }
    else { s with shots := sUpdate i o1 s.shots }
  else
    { s with
      shots := sUpdate i { o with status := false } s.shots,
      tasks := tRemove (TaskId.moveShot i) s.tasks }

/-- DecreaseCooldown: below 6, gain one unit (plus a display-only queue);
otherwise clear the recharging flag and remove its own task. -/
def decreaseCooldown (s : GState) : GState :=
  if s.game.shotCooldown < 6 then
    { s with game := { s.game with shotCooldown := s.game.shotCooldown + 1 } }
  else
    { s with gRecharging := false, tasks := tRemove TaskId.decCooldown s.tasks }

/-- IncreaseScore: score + 1, then the queued UpdateScore. -/
def increaseScore (s : GState) : GState :=
  updateScoreRun { s with game := { s.game with score := s.game.score + 1 } }

/-- Rows visited by the generate and shift loops: i = 1 .. MAP_HEIGHT-1. -/
def fieldRows : List Nat := List.range' 1 17

/-- One row of GenerateAsteroidColumn, driven by the sampled values
chk i = random_int(1, asteroidSpawnProbability) and ty i = random_int(1,2):
write 1 or 2 into the trailing column on success, else 0. -/
def genCell (chk ty : Nat → Nat) (i : Nat) (g : Nat → Nat → Nat) : Nat → Nat → Nat :=
  if chk i = 1 then
    (if ty i = 1 then gSet (mapWidth - 2) i 1 g else gSet (mapWidth - 2) i 2 g)
  else gSet (mapWidth - 2) i 0 g

/-- GenerateAsteroidColumn: fill the trailing column row by row. -/
def generateColumn (chk ty : Nat → Nat) (s : GState) : GState :=
  { s with asteroids := fieldRows.foldl (fun g i => genCell chk ty i g) s.asteroids }

/-- The (column, row) pairs of ShiftAsteroidColumns in visit order:
column = 1 .. MAP_WIDTH-2 outer, i = 1 .. MAP_HEIGHT-1 inner. -/
def shiftPairs : List (Nat × Nat) :=
  (List.range' 1 58).flatMap (fun c => (List.range' 1 17).map (fun r => (c, r)))

/-- One cell of ShiftAsteroidColumns: copy the next column's value in, then
resolve; an empty cell is display only (the shot-overlap test guards the
redraw, not the state), an obstacle ('o' = 1 or 'O' = 2) coincident with
the ship is a collision. -/
def shiftCell (s : GState) (p : Nat × Nat) : GState :=
  let v := s.asteroids (p.1 + 1) p.2
  let s1 := { s with asteroids := gSet p.1 p.2 v s.asteroids }
  if v = 0 then s1
  else if v = 1 then
    (if s1.game.x = p.1 ∧ s1.game.y = p.2 then collideAt p.1 p.2 s1 else s1)
  else if v = 2 then
    (if s1.game.x = p.1 ∧ s1.game.y = p.2 then collideAt p.1 p.2 s1 else s1)
  else s1

/-- ShiftAsteroidColumns: fold the cell step over all interior cells. -/
def shiftColumns (s : GState) : GState := shiftPairs.foldl shiftCell s

/-- GenerateAndShift: the periodic spawn/shift task body. -/
def generateAndShift (chk ty : Nat → Nat) (s : GState) : GState :=
  shiftColumns (generateColumn chk ty s)

/-- Play: clear the grid, reset the ship, score, shots-fired, health and
cooldown, register the receiver, draw, and schedule the spawn/shift and
score-tick tasks.  Play does NOT touch asteroidSpawnProbability, the shot
pool, or the recharge flag; gameOverCount is instrumentation counting the
current round's Game_GameOver calls, so it restarts at 0. -/
def play (s : GState) : GState :=
  { s with
    asteroids := fun _ _ => 0,
    game := { s.game with
      x := 1, y := mapHeight / 2, c := '>',
      score := 0, shotsFired := 0, health := 3, shotCooldown := 6 },
    receiverRegistered := true,
    tasks := tAdd TaskId.incScore (tAdd TaskId.genShift s.tasks),
    gameOverCount := 0 }

/-- The sub-command name recognised by Callback. -/
def resetCmd : String := "reset"

/-- strcasecmp equality (ASCII case-insensitive, character by character). -/
def strcaseeq (a b : String) : Bool :=
  a.data.map Char.toLower == b.data.map Char.toLower

/-- The host sub-command handler, defined-behaviour part: with at least one
argument, "reset" (case-insensitive) zeroes the score, anything else only
logs.  The argc = 0 path of the C code falls through to an out-of-bounds
argv[0] read; that fault is modelled precisely by callbackChecked below,
and the round model leaves the state unchanged there. -/
def callbackRun (args : List String) (s : GState) : GState :=
  match args.head? with
  | none => s
  | some a =>
      if strcaseeq a resetCmd = true then { s with game := { s.game with score := 0 } }
      else s

/-- The fire key (the space character, code 32). -/
def fireKey : Char := Char.ofNat 32

/-- Receiver: dispatch one input byte; unrecognised bytes are ignored. -/
def receiverDispatch (c : Char) (s : GState) : GState :=
  if c = 'a' ∨ c = 'A' then moveLeft s
  else if c = 'd' ∨ c = 'D' then moveRight s
  else if c = 'w' ∨ c = 'W' then moveUp s
  else if c = 's' ∨ c = 'S' then moveDown s
  else if c = fireKey then shoot s
  else s

/-- The events that can touch the round state: the start command, one input
byte (delivered only while the receiver is registered), and the scheduler
firing one pending task (a no-op when the task is not pending).  The
spawn/shift event carries the random samples as oracles. -/
inductive Event where
  | play
  | input (c : Char)
  | runGenShift (chk ty : Nat → Nat)
  | runIncScore
  | runMoveShot (i : Fin 5)
  | runDecCooldown
  | runResetColor
  | callback (args : List String)

/-- One execution step. -/
def step (e : Event) (s : GState) : GState :=
  match e with
  | Event.play => play s
  | Event.input c => if s.receiverRegistered = true then receiverDispatch c s else s
  | Event.runGenShift chk ty =>
      if s.tasks TaskId.genShift = true then generateAndShift chk ty s else s
  | Event.runIncScore => if s.tasks TaskId.incScore = true then increaseScore s else s
  | Event.runMoveShot i =>
      if s.tasks (TaskId.moveShot i) = true then moveRightShot i s else s
  | Event.runDecCooldown =>
      if s.tasks TaskId.decCooldown = true then decreaseCooldown s else s
  | Event.runResetColor =>
      if s.tasks TaskId.resetColor = true then
        { s with tasks := tRemove TaskId.resetColor s.tasks }
      else s
  | Event.callback args => callbackRun args s

/-- Run a sequence of events. -/
def run (evs : List Event) (s : GState) : GState :=
  evs.foldl (fun t e => step e t) s

/-- Program start: all statics zero-initialised, asteroidSpawnProbability at
its initialiser STARTING_DIFFICULTY, nothing scheduled, no receiver. -/
def initState : GState :=
  { game := { x := 0, y := 0, c := Char.ofNat 0, health := 0, shotCooldown := 0,
              score := 0, shotsFired := 0 },
    asteroids := fun _ _ => 0,
    shots := fun _ => { status := false, x := 0, y := 0 },
    tasks := fun _ => false,
    receiverRegistered := false,
    gRecharging := false,
    spawnProb := startingDifficulty,
    gameOverCount := 0 }

/-- Events other than the start command (the scope of one round). -/
def notPlay : Event → Bool
  | Event.play => false
  | _ => true

/-- Events of a round with no host command (in particular no score reset). -/
def roundNoHost : Event → Bool
  | Event.play => false
  | Event.callback _ => false
  | _ => true

/-- Number of Active slots in the pool. -/
def activeCount (s : GState) : Nat :=
  ((List.finRange 5).filter (fun i => (s.shots i).status)).length

/-
Bounded embedding of the asteroid-grid accesses (claim C10).

The C declaration is `static uint8_t asteroids[MAP_WIDTH-1][MAP_HEIGHT-1]`,
so the first index ranges over 0..58 and the second over 0..16.  Here
every read and write goes through a checked access that returns none when
an index is outside those declared bounds, and GenerateAsteroidColumn and
ShiftAsteroidColumns are re-traced with their exact loop bounds and index
expressions.
-/

/-- The grid's backing store; touched only through aGet / aSet. -/
def AGrid : Type := Nat → Nat → Nat

/-- Checked read of asteroids[c][r] against the declared bounds 59 × 17. -/
def aGet (g : AGrid) (c r : Nat) : Option Nat :=
  if c < 59 ∧ r < 17 then some (g c r) else none

/-- Checked write of asteroids[c][r] against the declared bounds 59 × 17. -/
def aSet (g : AGrid) (c r v : Nat) : Option AGrid :=
  if c < 59 ∧ r < 17 then
    some (fun c2 r2 => if c2 = c ∧ r2 = r then v else g c2 r2)
  else none

/-- One row of GenerateAsteroidColumn with checked accesses: the loop body for
row i writes asteroids[MAX_COLUMNS][i] = asteroids[58][i]. -/
def genRowChecked (chk ty : Nat → Nat) (g : AGrid) (i : Nat) : Option AGrid :=
  if chk i = 1 then
    (if ty i = 1 then aSet g 58 i 1 else aSet g 58 i 2)
  else aSet g 58 i 0

/-- GenerateAsteroidColumn with checked accesses: rows i = 1 .. MAP_HEIGHT-1,
i.e. 1 .. 17 inclusive. -/
def generateColumnChecked (chk ty : Nat → Nat) (g : AGrid) : Option AGrid :=
  (List.range' 1 17).foldlM (genRowChecked chk ty) g

/-- One cell of ShiftAsteroidColumns with checked accesses: read
asteroids[column+1][i], write it to asteroids[column][i], and on a
ship collision write 0 back. -/
def shiftCellChecked (shipX shipY : Nat) (g : AGrid) (p : Nat × Nat) : Option AGrid := do
  let v ← aGet g (p.1 + 1) p.2
  let g1 ← aSet g p.1 p.2 v
  if (v = 1 ∨ v = 2) ∧ shipX = p.1 ∧ shipY = p.2 then aSet g1 p.1 p.2 0
  else pure g1

/-- ShiftAsteroidColumns with checked accesses, over the same visit order. -/
def shiftColumnsChecked (shipX shipY : Nat) (g : AGrid) : Option AGrid :=
  shiftPairs.foldlM (shiftCellChecked shipX shipY) g

/-
Precise model of the host sub-command handler Callback (claim C8).

The C body is
    if(argc == 0) Game_Log(game.id, "too few args");
    if(strcasecmp(argv[0],"reset") == 0) { game.score = 0; ... }
    else Game_Log(game.id, "command not supported");
The first test does not return, so argv[0] is read unconditionally; with
argc = 0 that read is outside the supplied argument array.  The model
returns the new score together with the log lines, or none when an
argument access is out of bounds.
-/

/-- Log line: too few arguments. -/
def logFewArgs : String := "too few args"

/-- Log line: scores reset. -/
def logReset : String := "Scores reset"

/-- Log line: command not supported. -/
def logNotSupported : String := "command not supported"

/-- Callback over an explicit argument list: none marks the out-of-bounds
argv[0] read the code performs when argc = 0. -/
def callbackChecked (args : List String) (score : Int) : Option (Int × List String) :=
  let pre := if args.length = 0 then [logFewArgs] else []
  match args.head? with
  | none => none
  | some a =>
      if strcaseeq a resetCmd = true then some (0, pre ++ [logReset])
      else some (score, pre ++ [logNotSupported])

/-! ### Generic helpers -/

/-- A property preserved by every fold step is preserved by the fold. -/
theorem foldl_preserve {α β : Type} (P : α → Prop) (f : α → β → α)
    (hstep : ∀ x b, P x → P (f x b)) :
    ∀ (l : List β) (a : α), P a → P (l.foldl f a) := by
  intro l
  induction l with
  | nil => exact fun a ha => ha
  | cons b tl ih => exact fun a ha => ih _ (hstep _ _ ha)

/-- The shift loop visits each (column, row) cell exactly once. -/
theorem shiftPairs_nodup : shiftPairs.Nodup := by
  unfold shiftPairs
  rw [List.nodup_flatMap]
  constructor
  · intro c _
    exact (List.nodup_range' 1 17).map (fun r r2 h => by simpa using h)
  · refine List.Pairwise.imp ?_ (List.nodup_range' 1 58)
    intro a b hab x hxa hxb
    obtain ⟨r, _, rfl⟩ := List.mem_map.mp hxa
    obtain ⟨r2, _, he⟩ := List.mem_map.mp hxb
    exact hab (congrArg Prod.fst he.symm)

/-! ### C10: grid accesses against the declared array bounds -/

/-- The generate loop's final row writes asteroids[58][17]: out of bounds. -/
theorem genRowChecked_row17 (chk ty : Nat → Nat) (g : AGrid) :
    genRowChecked chk ty g 17 = none := by
  unfold genRowChecked aSet
  split_ifs <;> first | rfl | omega

/-- The shift loop's first column already reads asteroids[2][17] at row 17:
out of bounds in the second index. -/
theorem shiftCellChecked_row17 (sx sy : Nat) (g : AGrid) :
    shiftCellChecked sx sy g (1, 17) = none := by
  unfold shiftCellChecked aGet
  simp

/-- C10: the claim states that every grid access of GenerateAsteroidColumn
and ShiftAsteroidColumns stays inside the declared array bounds
asteroids[59][17] (first index at most 58, second at most 16) and that the
out-of-bounds branch of a checked embedding is unreachable.  The opposite
holds: both loops run their row index up to 17 (and the shift reads column
59), so under checked accesses both functions always fault. -/
theorem asteroids_grid_oob :
    (∀ (chk ty : Nat → Nat) (g : AGrid), generateColumnChecked chk ty g = none) ∧
    (∀ (sx sy : Nat) (g : AGrid), shiftColumnsChecked sx sy g = none) := by
  constructor
  · intro chk ty g
    unfold generateColumnChecked
    have h17 : List.range' 1 17 = List.range' 1 16 ++ [17] := by decide
    rw [h17, List.foldlM_append]
    cases hf : (List.range' 1 16).foldlM (genRowChecked chk ty) g with
    | none => rfl
    | some g2 => simp [List.foldlM_cons, genRowChecked_row17]
  · intro sx sy g
    unfold shiftColumnsChecked
    have hm : (1, 17) ∈ shiftPairs := by decide
    obtain ⟨s1, t1, hsplit⟩ := List.append_of_mem hm
    rw [hsplit, List.foldlM_append]
    cases hf : s1.foldlM (shiftCellChecked sx sy) g with
    | none => rfl
    | some g2 => simp [List.foldlM_cons, shiftCellChecked_row17]

/-! ### C8: the host sub-command handler -/

/-- C8: with no arguments the handler logs the rejection but then still
reads argv[0] (the checked model returns none there: the out-of-bounds
branch is reached, refuting the claim's "no game state is mutated" safety
for argc = 0); with at least one argument, "reset" (case-insensitive)
zeroes the score and anything else only logs a rejection. -/
theorem callback_claims :
    (∀ sc : Int, callbackChecked [] sc = none) ∧
    (∀ (a : String) (rest : List String) (sc : Int),
      strcaseeq a resetCmd = true →
        callbackChecked (a :: rest) sc = some (0, [logReset])) ∧
    (∀ (a : String) (rest : List String) (sc : Int),
      strcaseeq a resetCmd = false →
        callbackChecked (a :: rest) sc = some (sc, [logNotSupported])) := by
  refine ⟨fun sc => rfl, ?_, ?_⟩ <;>
    · intro a rest sc h
      simp [callbackChecked, h]

/-- Witness: the handler applied to the concrete sub-command list
["ReSeT"] resets the score to 0 (case-insensitive match). -/
theorem callback_claims_witness :
    callbackChecked (("ReSeT") :: []) 7 = some (0, [logReset]) :=
  callback_claims.2.1 (("ReSeT")) [] 7 (by decide)

/-! ### C9: difficulty across rounds -/

/-- C9 amended: Play does not restore asteroidSpawnProbability; the start
command leaves the spawn probability exactly as it was, and only program
start initialises it to STARTING_DIFFICULTY. -/
theorem play_difficulty_claims :
    (∀ s : GState, (step Event.play s).spawnProb = s.spawnProb) ∧
    initState.spawnProb = startingDifficulty :=
  ⟨fun _ => rfl, rfl⟩

set_option maxRecDepth 10000 in
/-- C9 counterexample: reach score 150 in a first round (spawn probability
ramps to 14), then issue the start command again; the new round still has
spawn probability 14, not the starting value 24 the claim requires. -/
theorem play_difficulty_counterexample :
    (run (Event.play :: List.replicate 150 Event.runIncScore) initState).spawnProb = 14 ∧
    (step Event.play
      (run (Event.play :: List.replicate 150 Event.runIncScore) initState)).spawnProb = 14 := by
  constructor <;> decide

/-! ### C1: what GameOver cancels -/

/-- C1 amended: the GameOver transition cancels the spawn/shift task, the
score-tick task and the advance-task of every Active shot slot, each
cancellation being an idempotent no-op when the task is not pending; it
does NOT cancel the recharge task (DecreaseCooldown), whose pending state
it leaves untouched (the recharge task only removes itself once the
cooldown refills to 6). -/
theorem gameOver_cancellations (s : GState)
    (h : ∀ i : Fin 5, s.tasks (TaskId.moveShot i) = true → (s.shots i).status = true) :
    (gameOver s).tasks TaskId.genShift = false ∧
    (gameOver s).tasks TaskId.incScore = false ∧
    (∀ i : Fin 5, (gameOver s).tasks (TaskId.moveShot i) = false) ∧
    (gameOver s).tasks TaskId.decCooldown = s.tasks TaskId.decCooldown ∧
    (∀ (t : TaskId) (ts : TaskId → Bool), ts t = false → tRemove t ts = ts) := by
  refine ⟨rfl, rfl, ?_, rfl, ?_⟩
  · intro i
    show (if (s.shots i).status = true then false else s.tasks (TaskId.moveShot i)) = false
    by_cases hs : (s.shots i).status = true
    · simp [hs]
    · simp only [hs, if_false]
      cases ht : s.tasks (TaskId.moveShot i)
      · rfl
      · exact absurd (h i ht) hs
  · intro t ts hts
    funext u
    unfold tRemove
    by_cases hu : u = t
    · subst hu; simp [hts]
    · simp [hu]

/-- Witness: after starting a round and firing once, slot 4 is active with
its advance-task pending, so the hypothesis holds; GameOver cancels the
listed tasks and leaves the pending recharge task pending. -/
theorem gameOver_cancellations_witness :
    (gameOver (run [Event.play, Event.input fireKey] initState)).tasks TaskId.genShift = false ∧
    (gameOver (run [Event.play, Event.input fireKey] initState)).tasks TaskId.incScore = false ∧
    (∀ i : Fin 5,
      (gameOver (run [Event.play, Event.input fireKey] initState)).tasks
        (TaskId.moveShot i) = false) ∧
    (gameOver (run [Event.play, Event.input fireKey] initState)).tasks TaskId.decCooldown =
      (run [Event.play, Event.input fireKey] initState).tasks TaskId.decCooldown ∧
    (∀ (t : TaskId) (ts : TaskId → Bool), ts t = false → tRemove t ts = ts) :=
  gameOver_cancellations (run [Event.play, Event.input fireKey] initState) (by decide)

/-- C1 counterexample: in that same reachable state the recharge task is
pending (the round fired once, so DecreaseCooldown was scheduled), and it
is STILL pending after GameOver, while the claim as stated requires the
RoundOver transition to cancel it. -/
theorem gameOver_recharge_counterexample :
    (run [Event.play, Event.input fireKey] initState).tasks TaskId.decCooldown = true ∧
    (gameOver (run [Event.play, Event.input fireKey] initState)).tasks
      TaskId.decCooldown = true := by
  constructor <;> decide

/-! ### C2: which slot Shoot allocates -/

/-- The slot-search loop overwrites its candidate on every idle slot, so a
found slot is idle and no idle slot has a higher index. -/
theorem findSlot_last (sh : Fin 5 → Shot) (i : Fin 5) (h : findSlot sh = some i) :
    (sh i).status = false ∧ ∀ j : Fin 5, (sh j).status = false → j ≤ i := by
  have e : List.finRange 5 = [0, 1, 2, 3, 4] := by decide
  unfold findSlot at h
  rw [e] at h
  simp only [List.foldl_cons, List.foldl_nil] at h
  split_ifs at h with h0 h1 h2 h3 h4 <;>
    (injection h with h; subst h;
     refine ⟨by assumption, ?_⟩;
     intro j hj; fin_cases j <;> simp_all)

/-- With every slot active the slot search comes back empty. -/
theorem findSlot_eq_none (sh : Fin 5 → Shot)
    (hh : ∀ j : Fin 5, (sh j).status = true) : findSlot sh = none := by
  have e : List.finRange 5 = [0, 1, 2, 3, 4] := by decide
  unfold findSlot
  rw [e]
  simp [hh]

/-- C2 amended: with cooldown at least 3 and an idle slot available, Shoot
allocates the LAST idle slot in pool order (the highest-indexed slot whose
status is Idle — the search loop overwrites its candidate on every idle
slot), activates it one cell ahead of the ship at (x+1, y), increments
shotsFired, and leaves every other slot untouched. -/
theorem shoot_allocates_last_idle (s : GState) (i : Fin 5)
    (hcd : 3 ≤ s.game.shotCooldown) (hf : findSlot s.shots = some i) :
    (shoot s).shots i = { status := true, x := s.game.x + 1, y := s.game.y } ∧
    (shoot s).game.shotsFired = s.game.shotsFired + 1 ∧
    (shoot s).game.shotCooldown = s.game.shotCooldown - 3 ∧
    (∀ j : Fin 5, j ≠ i → (shoot s).shots j = s.shots j) ∧
    (s.shots i).status = false ∧
    (∀ j : Fin 5, (s.shots j).status = false → j ≤ i) := by
  have hlast := findSlot_last s.shots i hf
  by_cases hr : s.gRecharging = false <;>
    refine ⟨?_, ?_, ?_, fun j hj => ?_, hlast.1, hlast.2⟩ <;>
      first
        | simp [shoot, hf, hcd, hr, sUpdate, hj]
        | simp [shoot, hf, hcd, hr, sUpdate]

/-- Witness: in the freshly started round (all slots idle, cooldown 6),
Shoot allocates slot 4 at (2, 9) and counts the shot. -/
theorem shoot_allocates_last_idle_witness :
    (shoot (step Event.play initState)).shots 4 =
      { status := true,
        x := (step Event.play initState).game.x + 1,
        y := (step Event.play initState).game.y } ∧
    (shoot (step Event.play initState)).game.shotsFired =
      (step Event.play initState).game.shotsFired + 1 ∧
    (shoot (step Event.play initState)).game.shotCooldown =
      (step Event.play initState).game.shotCooldown - 3 ∧
    (∀ j : Fin 5, j ≠ 4 → (shoot (step Event.play initState)).shots j =
      (step Event.play initState).shots j) ∧
    ((step Event.play initState).shots 4).status = false ∧
    (∀ j : Fin 5, ((step Event.play initState).shots j).status = false → j ≤ 4) :=
  shoot_allocates_last_idle (step Event.play initState) 4 (by decide) (by decide)

/-- C2 counterexample: in the freshly started round every slot of the pool
is Idle; one fire input allocates slot 4, NOT the first (lowest-indexed)
Idle slot 0, which stays Idle — the allocation is last-fit, not
first-fit. -/
theorem shoot_first_fit_counterexample :
    (∀ j : Fin 5, ((step Event.play initState).shots j).status = false) ∧
    ((step (Event.input fireKey) (step Event.play initState)).shots 4).status = true ∧
    ((step (Event.input fireKey) (step Event.play initState)).shots 0).status = false ∧
    (step (Event.input fireKey) (step Event.play initState)).game.shotsFired = 1 := by
  refine ⟨fun j => ?_, ?_, ?_, ?_⟩ <;> first | (fin_cases j <;> decide) | decide

/-! ### Component lemmas: which fields each operation touches -/

/-- UpdateScore leaves the game record untouched (it changes spawnProb). -/
@[simp] theorem updateScoreRun_game (s : GState) : (updateScoreRun s).game = s.game := rfl

/-- GameOver leaves the game record untouched. -/
@[simp] theorem gameOver_game (s : GState) : (gameOver s).game = s.game := rfl

/-- GameOver leaves the spawn probability untouched. -/
@[simp] theorem gameOver_spawnProb (s : GState) : (gameOver s).spawnProb = s.spawnProb := rfl

/-- GameOver leaves the recharging flag untouched. -/
@[simp] theorem gameOver_gRecharging (s : GState) :
    (gameOver s).gRecharging = s.gRecharging := rfl

/-- The queued UpdateHealth leaves the game record untouched. -/
@[simp] theorem updateHealthRun_game (s : GState) : (updateHealthRun s).game = s.game := by
  unfold updateHealthRun
  split_ifs <;> rfl

/-- The queued UpdateHealth leaves the spawn probability untouched. -/
@[simp] theorem updateHealthRun_spawnProb (s : GState) :
    (updateHealthRun s).spawnProb = s.spawnProb := by
  unfold updateHealthRun
  split_ifs <;> rfl

/-- The queued UpdateHealth leaves the recharging flag untouched. -/
@[simp] theorem updateHealthRun_gRecharging (s : GState) :
    (updateHealthRun s).gRecharging = s.gRecharging := by
  unfold updateHealthRun
  split_ifs <;> rfl

/-- Collision resolution: the game record changes only in health, which
drops by one with a floor at 0. -/
theorem collideAt_game (cx cy : Nat) (s : GState) :
    (collideAt cx cy s).game =
      { s.game with
        health := if 0 < s.game.health then s.game.health - 1 else s.game.health } := by
  unfold collideAt
  rw [updateHealthRun_game]

/-- Collision resolution leaves the ship x coordinate unchanged. -/
@[simp] theorem collideAt_x (cx cy : Nat) (s : GState) :
    (collideAt cx cy s).game.x = s.game.x := by rw [collideAt_game]

/-- Collision resolution leaves the ship y coordinate unchanged. -/
@[simp] theorem collideAt_y (cx cy : Nat) (s : GState) :
    (collideAt cx cy s).game.y = s.game.y := by rw [collideAt_game]

/-- Collision resolution leaves the cooldown unchanged. -/
@[simp] theorem collideAt_cd (cx cy : Nat) (s : GState) :
    (collideAt cx cy s).game.shotCooldown = s.game.shotCooldown := by rw [collideAt_game]

/-- Collision resolution leaves the score unchanged (ship collisions award
no points). -/
@[simp] theorem collideAt_score (cx cy : Nat) (s : GState) :
    (collideAt cx cy s).game.score = s.game.score := by rw [collideAt_game]

/-- Collision resolution leaves shots-fired unchanged. -/
@[simp] theorem collideAt_shotsFired (cx cy : Nat) (s : GState) :
    (collideAt cx cy s).game.shotsFired = s.game.shotsFired := by rw [collideAt_game]

/-- Collision resolution leaves the spawn probability unchanged. -/
@[simp] theorem collideAt_spawnProb (cx cy : Nat) (s : GState) :
    (collideAt cx cy s).spawnProb = s.spawnProb := by
  unfold collideAt
  rw [updateHealthRun_spawnProb]

/-- Collision resolution leaves the recharging flag unchanged. -/
@[simp] theorem collideAt_gRecharging (cx cy : Nat) (s : GState) :
    (collideAt cx cy s).gRecharging = s.gRecharging := by
  unfold collideAt
  rw [updateHealthRun_gRecharging]

/-- One shift cell leaves ship position, cooldown, score, shots-fired and
spawn probability unchanged. -/
theorem shiftCell_game_frame (s : GState) (p : Nat × Nat) :
    (shiftCell s p).game.x = s.game.x ∧
    (shiftCell s p).game.y = s.game.y ∧
    (shiftCell s p).game.shotCooldown = s.game.shotCooldown ∧
    (shiftCell s p).game.score = s.game.score ∧
    (shiftCell s p).game.shotsFired = s.game.shotsFired ∧
    (shiftCell s p).spawnProb = s.spawnProb := by
  simp only [shiftCell]
  split_ifs <;> simp

/-- The whole shift pass leaves those same fields unchanged. -/
theorem shiftColumns_game_frame (s : GState) :
    (shiftColumns s).game.x = s.game.x ∧
    (shiftColumns s).game.y = s.game.y ∧
    (shiftColumns s).game.shotCooldown = s.game.shotCooldown ∧
    (shiftColumns s).game.score = s.game.score ∧
    (shiftColumns s).game.shotsFired = s.game.shotsFired ∧
    (shiftColumns s).spawnProb = s.spawnProb := by
  unfold shiftColumns
  refine foldl_preserve (fun t =>
    t.game.x = s.game.x ∧ t.game.y = s.game.y ∧
    t.game.shotCooldown = s.game.shotCooldown ∧ t.game.score = s.game.score ∧
    t.game.shotsFired = s.game.shotsFired ∧ t.spawnProb = s.spawnProb)
    shiftCell ?_ shiftPairs s ⟨rfl, rfl, rfl, rfl, rfl, rfl⟩
  intro x p hx
  have hf := shiftCell_game_frame x p
  exact ⟨hf.1.trans hx.1, hf.2.1.trans hx.2.1, hf.2.2.1.trans hx.2.2.1,
    hf.2.2.2.1.trans hx.2.2.2.1, hf.2.2.2.2.1.trans hx.2.2.2.2.1,
    hf.2.2.2.2.2.trans hx.2.2.2.2.2⟩

/-- The four move handlers leave cooldown, score, shots-fired and spawn
probability unchanged. -/
theorem moveRight_frame (s : GState) :
    (moveRight s).game.shotCooldown = s.game.shotCooldown ∧
    (moveRight s).game.score = s.game.score ∧
    (moveRight s).game.shotsFired = s.game.shotsFired ∧
    (moveRight s).spawnProb = s.spawnProb := by
  simp only [moveRight]
  split_ifs <;> simp

/-- MoveLeft frame. -/
theorem moveLeft_frame (s : GState) :
    (moveLeft s).game.shotCooldown = s.game.shotCooldown ∧
    (moveLeft s).game.score = s.game.score ∧
    (moveLeft s).game.shotsFired = s.game.shotsFired ∧
    (moveLeft s).spawnProb = s.spawnProb := by
  simp only [moveLeft]
  split_ifs <;> simp

/-- MoveUp frame. -/
theorem moveUp_frame (s : GState) :
    (moveUp s).game.shotCooldown = s.game.shotCooldown ∧
    (moveUp s).game.score = s.game.score ∧
    (moveUp s).game.shotsFired = s.game.shotsFired ∧
    (moveUp s).spawnProb = s.spawnProb := by
  simp only [moveUp]
  split_ifs <;> simp

/-- MoveDown frame. -/
theorem moveDown_frame (s : GState) :
    (moveDown s).game.shotCooldown = s.game.shotCooldown ∧
    (moveDown s).game.score = s.game.score ∧
    (moveDown s).game.shotsFired = s.game.shotsFired ∧
    (moveDown s).spawnProb = s.spawnProb := by
  simp only [moveDown]
  split_ifs <;> simp

/-- Shoot with insufficient cooldown is a complete no-op. -/
theorem shoot_low_cd (s : GState) (h : s.game.shotCooldown < 3) : shoot s = s := by
  unfold shoot
  rw [if_neg (by omega)]

/-- Shoot with no free slot is a complete no-op. -/
theorem shoot_no_slot (s : GState) (h : findSlot s.shots = none) : shoot s = s := by
  unfold shoot
  split_ifs with hc
  · rw [h]
  · rfl

/-- Shoot on success: full characterisation of every touched field. -/
theorem shoot_success (s : GState) (i : Fin 5)
    (hcd : 3 ≤ s.game.shotCooldown) (hf : findSlot s.shots = some i) :
    (shoot s).game.shotCooldown = s.game.shotCooldown - 3 ∧
    (shoot s).game.shotsFired = s.game.shotsFired + 1 ∧
    (shoot s).game.score = s.game.score ∧
    (shoot s).game.health = s.game.health ∧
    (shoot s).game.x = s.game.x ∧
    (shoot s).game.y = s.game.y ∧
    (shoot s).shots i = { status := true, x := s.game.x + 1, y := s.game.y } ∧
    (∀ j : Fin 5, j ≠ i → (shoot s).shots j = s.shots j) ∧
    (shoot s).tasks (TaskId.moveShot i) = true ∧
    (∀ j : Fin 5, j ≠ i →
      (shoot s).tasks (TaskId.moveShot j) = s.tasks (TaskId.moveShot j)) ∧
    (shoot s).tasks TaskId.genShift = s.tasks TaskId.genShift ∧
    (shoot s).tasks TaskId.incScore = s.tasks TaskId.incScore ∧
    (shoot s).receiverRegistered = s.receiverRegistered ∧
    (shoot s).spawnProb = s.spawnProb ∧
    (shoot s).gameOverCount = s.gameOverCount := by
  by_cases hr : s.gRecharging = false <;>
    refine ⟨?_, ?_, ?_, ?_, ?_, ?_, ?_, fun j hj => ?_, ?_, fun j hj => ?_,
      ?_, ?_, ?_, ?_, ?_⟩ <;>
      first
        | simp [shoot, hf, hcd, hr, sUpdate, tAdd, hj]
        | simp [shoot, hf, hcd, hr, sUpdate, tAdd]

/-- MoveRightShot leaves cooldown, health, position of the ship, the
receiver flag and the game-over count unchanged. -/
theorem moveRightShot_frame (i : Fin 5) (s : GState) :
    (moveRightShot i s).game.shotCooldown = s.game.shotCooldown ∧
    (moveRightShot i s).game.health = s.game.health ∧
    (moveRightShot i s).game.x = s.game.x ∧
    (moveRightShot i s).game.y = s.game.y ∧
    (moveRightShot i s).receiverRegistered = s.receiverRegistered ∧
    (moveRightShot i s).gameOverCount = s.gameOverCount ∧
    (moveRightShot i s).tasks TaskId.genShift = s.tasks TaskId.genShift ∧
    (moveRightShot i s).tasks TaskId.incScore = s.tasks TaskId.incScore := by
  simp only [moveRightShot]
  split_ifs <;> simp [updateScoreRun, tRemove]

/-- The increase-score tick leaves everything but score and spawnProb. -/
theorem increaseScore_frame (s : GState) :
    (increaseScore s).game.shotCooldown = s.game.shotCooldown ∧
    (increaseScore s).game.health = s.game.health ∧
    (increaseScore s).game.x = s.game.x ∧
    (increaseScore s).game.y = s.game.y ∧
    (increaseScore s).game.score = s.game.score + 1 ∧
    (increaseScore s).shots = s.shots ∧
    (increaseScore s).tasks = s.tasks ∧
    (increaseScore s).receiverRegistered = s.receiverRegistered ∧
    (increaseScore s).gameOverCount = s.gameOverCount :=
  ⟨rfl, rfl, rfl, rfl, rfl, rfl, rfl, rfl, rfl⟩

/-- The callback handler touches only the score. -/
theorem callbackRun_frame (args : List String) (s : GState) :
    (callbackRun args s).game.shotCooldown = s.game.shotCooldown ∧
    (callbackRun args s).game.health = s.game.health ∧
    (callbackRun args s).game.x = s.game.x ∧
    (callbackRun args s).game.y = s.game.y ∧
    (callbackRun args s).shots = s.shots ∧
    (callbackRun args s).tasks = s.tasks ∧
    (callbackRun args s).receiverRegistered = s.receiverRegistered ∧
    (callbackRun args s).spawnProb = s.spawnProb ∧
    (callbackRun args s).gameOverCount = s.gameOverCount := by
  unfold callbackRun
  cases args with
  | nil => exact ⟨rfl, rfl, rfl, rfl, rfl, rfl, rfl, rfl, rfl⟩
  | cons a rest =>
    simp only [List.head?_cons]
    split_ifs <;> exact ⟨rfl, rfl, rfl, rfl, rfl, rfl, rfl, rfl, rfl⟩

/-! ### C3: the cooldown invariant -/

/-- One step keeps the cooldown within the cap of 6. -/
theorem step_cd_le (e : Event) (s : GState) (h : s.game.shotCooldown ≤ 6) :
    (step e s).game.shotCooldown ≤ 6 := by
  cases e with
  | play => simp [step, play]
  | input c =>
    simp only [step]
    split_ifs with hr
    · unfold receiverDispatch
      split_ifs
      · rw [moveLeft_frame s |>.1]; exact h
      · rw [moveRight_frame s |>.1]; exact h
      · rw [moveUp_frame s |>.1]; exact h
      · rw [moveDown_frame s |>.1]; exact h
      · by_cases hcd : 3 ≤ s.game.shotCooldown
        · cases hfnd : findSlot s.shots with
          | none => rw [shoot_no_slot s hfnd]; exact h
          | some i => rw [(shoot_success s i hcd hfnd).1]; omega
        · rw [shoot_low_cd s (by omega)]; exact h
      · exact h
    · exact h
  | runGenShift chk ty =>
    simp only [step]
    split_ifs with ht
    · show (generateAndShift chk ty s).game.shotCooldown ≤ 6
      unfold generateAndShift
      rw [(shiftColumns_game_frame _).2.2.1]
      exact h
    · exact h
  | runIncScore =>
    simp only [step]
    split_ifs with ht
    · rw [(increaseScore_frame s).1]; exact h
    · exact h
  | runMoveShot i =>
    simp only [step]
    split_ifs with ht
    · rw [(moveRightShot_frame i s).1]; exact h
    · exact h
  | runDecCooldown =>
    simp only [step]
    split_ifs with ht
    · unfold decreaseCooldown
      split_ifs with hlt
      · show s.game.shotCooldown + 1 ≤ 6; omega
      · exact h
    · exact h
  | runResetColor =>
    simp only [step]
    split_ifs with ht <;> exact h
  | callback args =>
    simp only [step]
    rw [(callbackRun_frame args s).1]; exact h

/-- C3: in every reachable state the cooldown is within [0,6] (it is a Nat,
so only the cap needs proof); Shoot is a complete no-op unless cooldown is
at least 3 and an idle slot exists, and on success consumes exactly 3;
each recharge tick adds exactly 1 below 6 and leaves the value unchanged
at 6, so it never pushes the cooldown above 6. -/
theorem cooldown_claims :
    (∀ evs : List Event, (run evs initState).game.shotCooldown ≤ 6) ∧
    (∀ s : GState, s.game.shotCooldown < 3 → shoot s = s) ∧
    (∀ s : GState, (∀ j : Fin 5, (s.shots j).status = true) → shoot s = s) ∧
    (∀ (s : GState) (i : Fin 5), 3 ≤ s.game.shotCooldown → findSlot s.shots = some i →
      (shoot s).game.shotCooldown = s.game.shotCooldown - 3) ∧
    (∀ s : GState, s.game.shotCooldown < 6 →
      (decreaseCooldown s).game.shotCooldown = s.game.shotCooldown + 1) ∧
    (∀ s : GState, 6 ≤ s.game.shotCooldown →
      (decreaseCooldown s).game.shotCooldown = s.game.shotCooldown) := by
  refine ⟨?_, shoot_low_cd, ?_, ?_, ?_, ?_⟩
  · intro evs
    exact foldl_preserve (fun t => t.game.shotCooldown ≤ 6) (fun t e => step e t)
      (fun x e hx => step_cd_le e x hx) evs initState (by decide)
  · intro s hall
    exact shoot_no_slot s (findSlot_eq_none s.shots hall)
  · intro s i hcd hf
    exact (shoot_success s i hcd hf).1
  · intro s hlt
    unfold decreaseCooldown
    rw [if_pos hlt]
  · intro s hge
    unfold decreaseCooldown
    rw [if_neg (by omega)]

/-- Witness: concrete instances — the untouched initial state has cooldown
0 so Shoot is a no-op; in the fresh round (cooldown 6, slot 4 found) Shoot
leaves cooldown 3; a recharge tick at cooldown 3 yields 4 and at 6 stays
6. -/
theorem cooldown_claims_witness :
    (run [] initState).game.shotCooldown ≤ 6 ∧
    shoot initState = initState ∧
    (shoot (step Event.play initState)).game.shotCooldown =
      (step Event.play initState).game.shotCooldown - 3 ∧
    (decreaseCooldown (shoot (step Event.play initState))).game.shotCooldown =
      (shoot (step Event.play initState)).game.shotCooldown + 1 ∧
    (decreaseCooldown (step Event.play initState)).game.shotCooldown =
      (step Event.play initState).game.shotCooldown :=
  ⟨cooldown_claims.1 [],
   cooldown_claims.2.1 initState (by decide),
   cooldown_claims.2.2.2.1 (step Event.play initState) 4 (by decide) (by decide),
   cooldown_claims.2.2.2.2.1 (shoot (step Event.play initState)) (by decide),
   cooldown_claims.2.2.2.2.2 (step Event.play initState) (by decide)⟩

/-! ### C7: ship confined to the interior -/

/-- The ship's reachable box: columns 1..57, rows 1..17, strictly inside the
boundary walls drawn at column 0 / row 0 and column 60 / row 18. -/
def ShipBnd (s : GState) : Prop :=
  1 ≤ s.game.x ∧ s.game.x ≤ 57 ∧ 1 ≤ s.game.y ∧ s.game.y ≤ 17

/-- Shoot never moves the ship. -/
theorem shoot_xy (s : GState) :
    (shoot s).game.x = s.game.x ∧ (shoot s).game.y = s.game.y := by
  by_cases hcd : 3 ≤ s.game.shotCooldown
  · cases hf : findSlot s.shots with
    | none => rw [shoot_no_slot s hf]; exact ⟨rfl, rfl⟩
    | some i =>
      have hs := shoot_success s i hcd hf
      exact ⟨hs.2.2.2.2.1, hs.2.2.2.2.2.1⟩
  · rw [shoot_low_cd s (by omega)]; exact ⟨rfl, rfl⟩

/-- MoveRight keeps the ship inside the box. -/
theorem moveRight_bnd (s : GState) (h : ShipBnd s) : ShipBnd (moveRight s) := by
  obtain ⟨h1, h2, h3, h4⟩ := h
  simp only [moveRight]
  split_ifs with hg hc
  · simp only [mapWidth] at hg
    exact ⟨by (try simp) <;> omega, by (try simp) <;> omega,
      by (try simp) <;> omega, by (try simp) <;> omega⟩
  · simp only [mapWidth] at hg
    exact ⟨by (try simp) <;> omega, by (try simp) <;> omega,
      by (try simp) <;> omega, by (try simp) <;> omega⟩
  · exact ⟨h1, h2, h3, h4⟩

/-- MoveLeft keeps the ship inside the box. -/
theorem moveLeft_bnd (s : GState) (h : ShipBnd s) : ShipBnd (moveLeft s) := by
  obtain ⟨h1, h2, h3, h4⟩ := h
  simp only [moveLeft]
  split_ifs with hg hc
  · exact ⟨by simp; omega, by simp; omega, by simp; omega, by simp; omega⟩
  · exact ⟨by simp; omega, by simp; omega, by simp; omega, by simp; omega⟩
  · exact ⟨h1, h2, h3, h4⟩

/-- MoveUp keeps the ship inside the box. -/
theorem moveUp_bnd (s : GState) (h : ShipBnd s) : ShipBnd (moveUp s) := by
  obtain ⟨h1, h2, h3, h4⟩ := h
  simp only [moveUp]
  split_ifs with hg hc
  · exact ⟨by simp; omega, by simp; omega, by simp; omega, by simp; omega⟩
  · exact ⟨by simp; omega, by simp; omega, by simp; omega, by simp; omega⟩
  · exact ⟨h1, h2, h3, h4⟩

/-- MoveDown keeps the ship inside the box. -/
theorem moveDown_bnd (s : GState) (h : ShipBnd s) : ShipBnd (moveDown s) := by
  obtain ⟨h1, h2, h3, h4⟩ := h
  simp only [moveDown]
  split_ifs with hg hc
  · simp only [mapHeight] at hg
    exact ⟨by (try simp) <;> omega, by (try simp) <;> omega,
      by (try simp) <;> omega, by (try simp) <;> omega⟩
  · simp only [mapHeight] at hg
    exact ⟨by (try simp) <;> omega, by (try simp) <;> omega,
      by (try simp) <;> omega, by (try simp) <;> omega⟩
  · exact ⟨h1, h2, h3, h4⟩

/-- Every step keeps the ship inside the box. -/
theorem step_bnd (e : Event) (s : GState) (h : ShipBnd s) : ShipBnd (step e s) := by
  cases e with
  | play =>
    show ShipBnd (play s)
    refine ⟨?_, ?_, ?_, ?_⟩ <;> norm_num [play, mapHeight]
  | input c =>
    simp only [step]
    split_ifs with hr
    · unfold receiverDispatch
      split_ifs
      · exact moveLeft_bnd s h
      · exact moveRight_bnd s h
      · exact moveUp_bnd s h
      · exact moveDown_bnd s h
      · have hs := shoot_xy s
        exact ⟨hs.1 ▸ h.1, hs.1 ▸ h.2.1, hs.2 ▸ h.2.2.1, hs.2 ▸ h.2.2.2⟩
      · exact h
    · exact h
  | runGenShift chk ty =>
    simp only [step]
    split_ifs with ht
    · show ShipBnd (generateAndShift chk ty s)
      unfold generateAndShift
      have hf := shiftColumns_game_frame (generateColumn chk ty s)
      have hx : (generateColumn chk ty s).game = s.game := rfl
      refine ⟨?_, ?_, ?_, ?_⟩
      · rw [hf.1, hx]; exact h.1
      · rw [hf.1, hx]; exact h.2.1
      · rw [hf.2.1, hx]; exact h.2.2.1
      · rw [hf.2.1, hx]; exact h.2.2.2
    · exact h
  | runIncScore =>
    simp only [step]
    split_ifs with ht
    · have hf := increaseScore_frame s
      exact ⟨hf.2.2.1 ▸ h.1, hf.2.2.1 ▸ h.2.1, hf.2.2.2.1 ▸ h.2.2.1, hf.2.2.2.1 ▸ h.2.2.2⟩
    · exact h
  | runMoveShot i =>
    simp only [step]
    split_ifs with ht
    · have hf := moveRightShot_frame i s
      exact ⟨hf.2.2.1 ▸ h.1, hf.2.2.1 ▸ h.2.1, hf.2.2.2.1 ▸ h.2.2.1, hf.2.2.2.1 ▸ h.2.2.2⟩
    · exact h
  | runDecCooldown =>
    simp only [step]
    split_ifs with ht
    · unfold decreaseCooldown
      split_ifs <;> exact h
    · exact h
  | runResetColor =>
    simp only [step]
    split_ifs with ht <;> exact h
  | callback args =>
    simp only [step]
    have hf := callbackRun_frame args s
    exact ⟨hf.2.2.1 ▸ h.1, hf.2.2.1 ▸ h.2.1, hf.2.2.2.1 ▸ h.2.2.1, hf.2.2.2.1 ▸ h.2.2.2⟩

/-- C7: from the start of a round on, through any event sequence, the ship
stays strictly inside the playfield interior (columns 1..57, rows 1..17,
never on a boundary wall); a movement command whose guard fails — one that
would leave that range — changes no component of the state at all. -/
theorem ship_bounds_claims (s0 : GState) (evs : List Event) :
    ShipBnd (run evs (step Event.play s0)) ∧
    (∀ s : GState, ¬ s.game.x < 57 → moveRight s = s) ∧
    (∀ s : GState, ¬ 1 < s.game.x → moveLeft s = s) ∧
    (∀ s : GState, ¬ 1 < s.game.y → moveUp s = s) ∧
    (∀ s : GState, ¬ s.game.y < 17 → moveDown s = s) := by
  refine ⟨?_, ?_, ?_, ?_, ?_⟩
  · refine foldl_preserve ShipBnd (fun t e => step e t)
      (fun x e hx => step_bnd e x hx) evs (step Event.play s0) ?_
    show ShipBnd (play s0)
    refine ⟨?_, ?_, ?_, ?_⟩ <;> norm_num [play, mapHeight]
  · intro s hg
    unfold moveRight
    rw [if_neg (show ¬ s.game.x < mapWidth - 3 by simpa [mapWidth] using hg)]
  · intro s hg
    unfold moveLeft
    rw [if_neg hg]
  · intro s hg
    unfold moveUp
    rw [if_neg hg]
  · intro s hg
    unfold moveDown
    rw [if_neg (show ¬ s.game.y < mapHeight - 1 by simpa [mapHeight] using hg)]

/-- Witness: in the fresh round the ship sits at (1, 9) inside the box, and
a move-left command there (x = 1, the guard fails) changes nothing. -/
theorem ship_bounds_claims_witness :
    ShipBnd (run [] (step Event.play initState)) ∧
    moveLeft (step Event.play initState) = step Event.play initState :=
  ⟨(ship_bounds_claims initState []).1,
   (ship_bounds_claims initState []).2.2.1 (step Event.play initState) (by decide)⟩

/-! ### C6: the shot pool and its advance-tasks -/

/-- Pool invariant: a slot is Active exactly when its advance-task is
pending. -/
def PoolInv (s : GState) : Prop :=
  ∀ i : Fin 5, (s.shots i).status = s.tasks (TaskId.moveShot i)

/-- GameOver keeps the pool invariant: it releases every active slot and
cancels exactly that slot's task. -/
theorem gameOver_pool (s : GState) (h : PoolInv s) : PoolInv (gameOver s) := by
  intro i
  show (if (s.shots i).status = true then { s.shots i with status := false }
        else s.shots i).status =
    (if (s.shots i).status = true then false else s.tasks (TaskId.moveShot i))
  by_cases hs : (s.shots i).status = true
  · simp [hs]
  · simp only [hs, if_false]
    exact h i

/-- The queued UpdateHealth keeps the pool invariant. -/
theorem updateHealthRun_pool (s : GState) (h : PoolInv s) : PoolInv (updateHealthRun s) := by
  unfold updateHealthRun
  split_ifs
  · exact gameOver_pool s h
  · exact h

/-- Collision resolution keeps the pool invariant. -/
theorem collideAt_pool (cx cy : Nat) (s : GState) (h : PoolInv s) :
    PoolInv (collideAt cx cy s) := by
  unfold collideAt
  refine updateHealthRun_pool _ (fun i => ?_)
  show (s.shots i).status = tAdd TaskId.resetColor s.tasks (TaskId.moveShot i)
  simp [tAdd]
  exact h i

/-- One shift cell keeps the pool invariant. -/
theorem shiftCell_pool (s : GState) (p : Nat × Nat) (h : PoolInv s) :
    PoolInv (shiftCell s p) := by
  simp only [shiftCell]
  split_ifs <;> first | exact h | exact collideAt_pool _ _ _ (fun i => h i)

/-- MoveRightShot keeps the pool invariant. -/
theorem moveRightShot_pool (i : Fin 5) (s : GState) (h : PoolInv s) :
    PoolInv (moveRightShot i s) := by
  intro j
  simp only [moveRightShot]
  split_ifs with h1 h2
  · by_cases hj : j = i
    · subst hj; simp [updateScoreRun, sUpdate, tRemove]
    · simp [updateScoreRun, sUpdate, tRemove, hj]
      exact h j
  · by_cases hj : j = i
    · subst hj
      simpa [sUpdate] using h j
    · simp [sUpdate, hj]
      exact h j
  · by_cases hj : j = i
    · subst hj; simp [sUpdate, tRemove]
    · simp [sUpdate, tRemove, hj]
      exact h j

/-- Shoot keeps the pool invariant: the allocated idle slot goes Active
together with its newly scheduled advance-task. -/
theorem shoot_pool (s : GState) (h : PoolInv s) : PoolInv (shoot s) := by
  by_cases hcd : 3 ≤ s.game.shotCooldown
  · cases hf : findSlot s.shots with
    | none => rw [shoot_no_slot s hf]; exact h
    | some i =>
      obtain ⟨hcd3, hsf, hsc, hhl, hx, hy, hsi, hsj, hti, htj, hgs, his, hrv, hsp, hgc⟩ :=
        shoot_success s i hcd hf
      intro j
      by_cases hj : j = i
      · subst hj
        rw [hsi, hti]
      · rw [hsj j hj, htj j hj]
        exact h j
  · rw [shoot_low_cd s (by omega)]; exact h

/-- The four move handlers keep the pool invariant. -/
theorem moves_pool (s : GState) (h : PoolInv s) :
    PoolInv (moveRight s) ∧ PoolInv (moveLeft s) ∧
    PoolInv (moveUp s) ∧ PoolInv (moveDown s) := by
  refine ⟨?_, ?_, ?_, ?_⟩ <;>
    · simp only [moveRight, moveLeft, moveUp, moveDown]
      split_ifs <;> first | exact h | exact collideAt_pool _ _ _ (fun i => h i)

/-- Every step keeps the pool invariant. -/
theorem step_pool (e : Event) (s : GState) (h : PoolInv s) : PoolInv (step e s) := by
  cases e with
  | play =>
    intro i
    show (s.shots i).status = tAdd TaskId.incScore (tAdd TaskId.genShift s.tasks)
      (TaskId.moveShot i)
    simp [tAdd]
    exact h i
  | input c =>
    simp only [step]
    split_ifs with hr
    · unfold receiverDispatch
      split_ifs
      · exact (moves_pool s h).2.1
      · exact (moves_pool s h).1
      · exact (moves_pool s h).2.2.1
      · exact (moves_pool s h).2.2.2
      · exact shoot_pool s h
      · exact h
    · exact h
  | runGenShift chk ty =>
    simp only [step]
    split_ifs with ht
    · show PoolInv (generateAndShift chk ty s)
      unfold generateAndShift shiftColumns
      refine foldl_preserve PoolInv shiftCell (fun x p hx => shiftCell_pool x p hx)
        shiftPairs _ (fun i => ?_)
      exact h i
    · exact h
  | runIncScore =>
    simp only [step]
    split_ifs with ht
    · exact fun i => h i
    · exact h
  | runMoveShot i =>
    simp only [step]
    split_ifs with ht
    · exact moveRightShot_pool i s h
    · exact h
  | runDecCooldown =>
    simp only [step]
    split_ifs with ht
    · intro i
      unfold decreaseCooldown
      split_ifs with hlt
      · exact h i
      · show (s.shots i).status = tRemove TaskId.decCooldown s.tasks (TaskId.moveShot i)
        simp [tRemove]
        exact h i
    · exact h
  | runResetColor =>
    simp only [step]
    split_ifs with ht
    · intro i
      show (s.shots i).status = tRemove TaskId.resetColor s.tasks (TaskId.moveShot i)
      simp [tRemove]
      exact h i
    · exact h
  | callback args =>
    simp only [step]
    intro i
    rw [(callbackRun_frame args s).2.2.2.2.1, (callbackRun_frame args s).2.2.2.2.2.1]
    exact h i

/-- C6: the pool bounds the number of simultaneously Active shots by
MAX_SHOTS = 5; in every reachable state a slot is Active exactly when its
advance-task is pending (so allocation schedules exactly one task and
every release — collision, far boundary, or GameOver — cancels exactly
that one task); and the scheduler never runs an advance-task for a
released slot: firing the task of an Idle slot is a complete no-op. -/
theorem shot_pool_claims (evs : List Event) (i : Fin 5) :
    activeCount (run evs initState) ≤ 5 ∧
    ((run evs initState).shots i).status = (run evs initState).tasks (TaskId.moveShot i) ∧
    (∀ s : GState, PoolInv s → (s.shots i).status = false →
      step (Event.runMoveShot i) s = s) := by
  refine ⟨?_, ?_, ?_⟩
  · have hlen : ((List.finRange 5).filter
        (fun j => ((run evs initState).shots j).status)).length ≤
        (List.finRange 5).length := List.length_filter_le _ _
    simpa [activeCount] using hlen
  · have hinv : PoolInv (run evs initState) :=
      foldl_preserve PoolInv (fun t e => step e t)
        (fun x e hx => step_pool e x hx) evs initState (fun i => rfl)
    exact hinv i
  · intro s hinv hs
    have ht : s.tasks (TaskId.moveShot i) = false := by rw [← hinv i]; exact hs
    simp [step, ht]

/-- Witness: in the untouched initial state slot 0 is Idle and its
advance-task is not pending; firing that task is a no-op. -/
theorem shot_pool_claims_witness :
    activeCount (run [] initState) ≤ 5 ∧
    ((run [] initState).shots 0).status = (run [] initState).tasks (TaskId.moveShot 0) ∧
    step (Event.runMoveShot 0) initState = initState :=
  ⟨(shot_pool_claims [] 0).1, (shot_pool_claims [] 0).2.1,
   (shot_pool_claims [] 0).2.2 initState (fun i => rfl) (by decide)⟩

/-! ### C5: score-driven difficulty -/

/-- Which difficulty band a score lies in, with the tier value of each. -/
theorem tier_spec (sc : Int) :
    (sc < 25 ∧ tier sc = 0) ∨ (25 ≤ sc ∧ sc < 35 ∧ tier sc = 1) ∨
    (35 ≤ sc ∧ sc < 45 ∧ tier sc = 2) ∨ (45 ≤ sc ∧ sc < 70 ∧ tier sc = 3) ∨
    (70 ≤ sc ∧ sc < 90 ∧ tier sc = 4) ∨ (90 ≤ sc ∧ sc < 100 ∧ tier sc = 5) ∨
    (100 ≤ sc ∧ sc < 110 ∧ tier sc = 6) ∨ (110 ≤ sc ∧ sc < 120 ∧ tier sc = 7) ∨
    (120 ≤ sc ∧ sc < 130 ∧ tier sc = 8) ∨ (130 ≤ sc ∧ sc < 150 ∧ tier sc = 9) ∨
    (150 ≤ sc ∧ tier sc = 10) := by
  by_cases c1 : sc < 25
  · exact Or.inl ⟨c1, by simp [tier, c1]⟩
  by_cases c2 : sc < 35
  · exact Or.inr (Or.inl ⟨by omega, c2, by simp [tier, c1, c2]⟩)
  by_cases c3 : sc < 45
  · exact Or.inr (Or.inr (Or.inl ⟨by omega, c3, by simp [tier, c1, c2, c3]⟩))
  by_cases c4 : sc < 70
  · exact Or.inr (Or.inr (Or.inr (Or.inl ⟨by omega, c4, by simp [tier, c1, c2, c3, c4]⟩)))
  by_cases c5 : sc < 90
  · exact Or.inr (Or.inr (Or.inr (Or.inr (Or.inl ⟨by omega, c5, by simp [tier, c1, c2, c3, c4, c5]⟩))))
  by_cases c6 : sc < 100
  · exact Or.inr (Or.inr (Or.inr (Or.inr (Or.inr (Or.inl ⟨by omega, c6, by simp [tier, c1, c2, c3, c4, c5, c6]⟩)))))
  by_cases c7 : sc < 110
  · exact Or.inr (Or.inr (Or.inr (Or.inr (Or.inr (Or.inr (Or.inl ⟨by omega, c7, by simp [tier, c1, c2, c3, c4, c5, c6, c7]⟩))))))
  by_cases c8 : sc < 120
  · exact Or.inr (Or.inr (Or.inr (Or.inr (Or.inr (Or.inr (Or.inr (Or.inl ⟨by omega, c8, by simp [tier, c1, c2, c3, c4, c5, c6, c7, c8]⟩)))))))
  by_cases c9 : sc < 130
  · exact Or.inr (Or.inr (Or.inr (Or.inr (Or.inr (Or.inr (Or.inr (Or.inr (Or.inl ⟨by omega, c9, by simp [tier, c1, c2, c3, c4, c5, c6, c7, c8, c9]⟩))))))))
  by_cases c10 : sc < 150
  · exact Or.inr (Or.inr (Or.inr (Or.inr (Or.inr (Or.inr (Or.inr (Or.inr (Or.inr (Or.inl ⟨by omega, c10, by simp [tier, c1, c2, c3, c4, c5, c6, c7, c8, c9, c10]⟩)))))))))
  · exact Or.inr (Or.inr (Or.inr (Or.inr (Or.inr (Or.inr (Or.inr (Or.inr (Or.inr (Or.inr (⟨by omega, by simp [tier, c1, c2, c3, c4, c5, c6, c7, c8, c9, c10]⟩))))))))))

/-- The tier is monotone in the score. -/
theorem tier_mono (a b : Int) (h : a ≤ b) : tier a ≤ tier b := by
  have ha := tier_spec a
  have hb := tier_spec b
  omega

/-- There are only ten thresholds. -/
theorem tier_le_ten (sc : Int) : tier sc ≤ 10 := by
  have := tier_spec sc
  omega

/-- One +1 score step through the difficulty table keeps the probability at
STARTING_DIFFICULTY minus the number of thresholds reached: score moves
through every value, so each threshold is met exactly, at which moment the
table assigns exactly the next lower probability. -/
theorem newSpawnProb_tier (sc : Int) (p : Nat) (h : p = startingDifficulty - tier sc) :
    newSpawnProb (sc + 1) p = startingDifficulty - tier (sc + 1) := by
  subst h
  have h1 := tier_spec sc
  have h2 := tier_spec (sc + 1)
  unfold newSpawnProb startingDifficulty
  split_ifs <;> omega

/-- Difficulty invariant of a fresh, reset-free round. -/
def DiffInv (s : GState) : Prop :=
  s.spawnProb = startingDifficulty - tier s.game.score

/-- A property preserved by allowed fold steps is preserved by a fold over
allowed elements. -/
theorem foldl_preserve_mem {α β : Type} (P : α → Prop) (ok : β → Bool) (f : α → β → α)
    (hstep : ∀ x b, ok b = true → P x → P (f x b)) :
    ∀ (l : List β) (a : α), (∀ b ∈ l, ok b = true) → P a → P (l.foldl f a) := by
  intro l
  induction l with
  | nil => exact fun a _ ha => ha
  | cons b tl ih =>
    intro a hok ha
    rw [List.foldl_cons]
    exact ih (f a b) (fun x hx => hok x (List.mem_cons_of_mem b hx))
      (hstep a b (hok b (List.mem_cons_self b tl)) ha)

/-- Shoot touches neither score nor spawn probability. -/
theorem shoot_score_prob (s : GState) :
    (shoot s).game.score = s.game.score ∧ (shoot s).spawnProb = s.spawnProb := by
  by_cases hcd : 3 ≤ s.game.shotCooldown
  · cases hf : findSlot s.shots with
    | none => rw [shoot_no_slot s hf]; exact ⟨rfl, rfl⟩
    | some i =>
      obtain ⟨hcd3, hsf, hsc, hhl, hx, hy, hsi, hsj, hti, htj, hgs, his, hrv, hsp, hgc⟩ :=
        shoot_success s i hcd hf
      exact ⟨hsc, hsp⟩
  · rw [shoot_low_cd s (by omega)]; exact ⟨rfl, rfl⟩

/-- MoveRightShot keeps the difficulty invariant (a projectile kill adds one
point and immediately runs the score/difficulty update). -/
theorem moveRightShot_diff (i : Fin 5) (s : GState) (h : DiffInv s) :
    DiffInv (moveRightShot i s) := by
  simp only [moveRightShot]
  split_ifs with h1 h2
  · show DiffInv (updateScoreRun _)
    unfold DiffInv updateScoreRun
    exact newSpawnProb_tier s.game.score s.spawnProb h
  · exact h
  · exact h

/-- Every reset-free, non-start event keeps the difficulty invariant. -/
theorem step_diff (e : Event) (s : GState) (he : roundNoHost e = true) (h : DiffInv s) :
    DiffInv (step e s) := by
  cases e with
  | play => simp [roundNoHost] at he
  | callback args => simp [roundNoHost] at he
  | input c =>
    simp only [step]
    split_ifs with hr
    · unfold receiverDispatch
      split_ifs
      · show DiffInv (moveLeft s)
        unfold DiffInv
        rw [(moveLeft_frame s).2.2.2, (moveLeft_frame s).2.1]
        exact h
      · show DiffInv (moveRight s)
        unfold DiffInv
        rw [(moveRight_frame s).2.2.2, (moveRight_frame s).2.1]
        exact h
      · show DiffInv (moveUp s)
        unfold DiffInv
        rw [(moveUp_frame s).2.2.2, (moveUp_frame s).2.1]
        exact h
      · show DiffInv (moveDown s)
        unfold DiffInv
        rw [(moveDown_frame s).2.2.2, (moveDown_frame s).2.1]
        exact h
      · show DiffInv (shoot s)
        unfold DiffInv
        rw [(shoot_score_prob s).2, (shoot_score_prob s).1]
        exact h
      · exact h
    · exact h
  | runGenShift chk ty =>
    simp only [step]
    split_ifs with ht
    · show DiffInv (generateAndShift chk ty s)
      unfold generateAndShift DiffInv
      rw [(shiftColumns_game_frame _).2.2.2.2.2, (shiftColumns_game_frame _).2.2.2.1]
      exact h
    · exact h
  | runIncScore =>
    simp only [step]
    split_ifs with ht
    · show DiffInv (increaseScore s)
      unfold DiffInv increaseScore updateScoreRun
      exact newSpawnProb_tier s.game.score s.spawnProb h
    · exact h
  | runMoveShot i =>
    simp only [step]
    split_ifs with ht
    · exact moveRightShot_diff i s h
    · exact h
  | runDecCooldown =>
    simp only [step]
    split_ifs with ht
    · unfold decreaseCooldown
      split_ifs <;> exact h
    · exact h
  | runResetColor =>
    simp only [step]
    split_ifs with ht <;> exact h

/-- Every reset-free, non-start event can only raise the score. -/
theorem step_score_mono (e : Event) (s : GState) (he : roundNoHost e = true) :
    s.game.score ≤ (step e s).game.score := by
  cases e with
  | play => simp [roundNoHost] at he
  | callback args => simp [roundNoHost] at he
  | input c =>
    simp only [step]
    split_ifs with hr
    · unfold receiverDispatch
      split_ifs
      · rw [(moveLeft_frame s).2.1]
      · rw [(moveRight_frame s).2.1]
      · rw [(moveUp_frame s).2.1]
      · rw [(moveDown_frame s).2.1]
      · rw [(shoot_score_prob s).1]
      · exact le_refl _
    · exact le_refl _
  | runGenShift chk ty =>
    simp only [step]
    split_ifs with ht
    · show s.game.score ≤ (generateAndShift chk ty s).game.score
      unfold generateAndShift
      rw [(shiftColumns_game_frame _).2.2.2.1]
      exact le_refl _
    · exact le_refl _
  | runIncScore =>
    simp only [step]
    split_ifs with ht
    · show s.game.score ≤ (increaseScore s).game.score
      rw [(increaseScore_frame s).2.2.2.2.1]
      omega
    · exact le_refl _
  | runMoveShot i =>
    simp only [step]
    split_ifs with ht
    · simp only [moveRightShot]
      split_ifs
      · show s.game.score ≤ (updateScoreRun _).game.score
        rw [updateScoreRun_game]
        show s.game.score ≤ s.game.score + 1
        omega
      · exact le_refl _
      · exact le_refl _
    · exact le_refl _
  | runDecCooldown =>
    simp only [step]
    split_ifs with ht
    · unfold decreaseCooldown
      split_ifs <;> exact le_refl _
    · exact le_refl _
  | runResetColor =>
    simp only [step]
    split_ifs with ht <;> exact le_refl _

/-- C5 amended: in a round that starts with asteroidSpawnProbability at its
starting value 24 and during which neither the start command nor any host
sub-command (score reset) runs, the spawn probability always equals
24 minus the number of thresholds the score has reached — hence it is
non-increasing as the score rises, drops by exactly 1 the moment a
threshold is reached and never again for the same threshold, and never
goes below 14 (in particular never below the clamp floor 1).  The
counterexample shows the claim fails without those provisos. -/
theorem difficulty_round_claims (s0 : GState) (evs evs2 : List Event)
    (h24 : s0.spawnProb = startingDifficulty)
    (h1 : forall e, e ∈ evs -> roundNoHost e = true)
    (h2 : forall e, e ∈ evs2 -> roundNoHost e = true) :
    (run evs (step Event.play s0)).spawnProb =
      startingDifficulty - tier (run evs (step Event.play s0)).game.score ∧
    14 ≤ (run evs (step Event.play s0)).spawnProb ∧
    1 ≤ (run evs (step Event.play s0)).spawnProb ∧
    (run evs2 (run evs (step Event.play s0))).spawnProb ≤
      (run evs (step Event.play s0)).spawnProb := by
  have hbase : DiffInv (step Event.play s0) := by
    show DiffInv (play s0)
    unfold DiffInv
    show s0.spawnProb = startingDifficulty - tier 0
    rw [h24]
    decide
  have hinv : DiffInv (run evs (step Event.play s0)) :=
    foldl_preserve_mem DiffInv roundNoHost (fun t e => step e t)
      (fun x b hb hx => step_diff b x hb hx) evs (step Event.play s0) h1 hbase
  have hinv2 : DiffInv (run evs2 (run evs (step Event.play s0))) :=
    foldl_preserve_mem DiffInv roundNoHost (fun t e => step e t)
      (fun x b hb hx => step_diff b x hb hx) evs2 _ h2 hinv
  have hmono : (run evs (step Event.play s0)).game.score ≤
      (run evs2 (run evs (step Event.play s0))).game.score :=
    foldl_preserve_mem
      (fun u => (run evs (step Event.play s0)).game.score ≤ u.game.score)
      roundNoHost (fun t e => step e t)
      (fun x b hb hx => le_trans hx (step_score_mono b x hb)) evs2 _ h2 (le_refl _)
  refine ⟨hinv, ?_, ?_, ?_⟩
  · rw [hinv]
    have := tier_le_ten (run evs (step Event.play s0)).game.score
    unfold startingDifficulty
    omega
  · rw [hinv]
    have := tier_le_ten (run evs (step Event.play s0)).game.score
    unfold startingDifficulty
    omega
  · rw [hinv, hinv2]
    have hta := tier_le_ten (run evs (step Event.play s0)).game.score
    have htb := tier_le_ten (run evs2 (run evs (step Event.play s0))).game.score
    have := tier_mono _ _ hmono
    unfold startingDifficulty
    omega

/-- Witness: one score tick after a fresh start — probability 24, within
bounds, and not increased by a further empty run. -/
theorem difficulty_round_claims_witness :
    (run [Event.runIncScore] (step Event.play initState)).spawnProb =
      startingDifficulty -
        tier (run [Event.runIncScore] (step Event.play initState)).game.score ∧
    14 ≤ (run [Event.runIncScore] (step Event.play initState)).spawnProb ∧
    1 ≤ (run [Event.runIncScore] (step Event.play initState)).spawnProb ∧
    (run [] (run [Event.runIncScore] (step Event.play initState))).spawnProb ≤
      (run [Event.runIncScore] (step Event.play initState)).spawnProb :=
  difficulty_round_claims initState [Event.runIncScore] [] rfl
    (by intro e he; rw [List.mem_singleton] at he; subst he; rfl)
    (by intro e he; cases he)

set_option maxRecDepth 10000 in
/-- C5 counterexample: inside ONE round, reach score 35 (probability has
stepped 24 to 23 to 22), have the host "reset" sub-command set the score
back to 0 (probability stays 22), then climb again: when the score reaches
25 for the second time the table ASSIGNS probability 23 — the probability
INCREASES from 22 to 23 while the cumulative score rises from 24 to 25,
refuting "non-increasing" and the per-threshold exactly-once decrement. -/
theorem difficulty_counterexample :
    (run (Event.play ::
        (List.replicate 35 Event.runIncScore ++
          Event.callback [resetCmd] :: List.replicate 24 Event.runIncScore))
      initState).spawnProb = 22 ∧
    (run (Event.play ::
        (List.replicate 35 Event.runIncScore ++
          Event.callback [resetCmd] :: List.replicate 24 Event.runIncScore))
      initState).game.score = 24 ∧
    (step Event.runIncScore
      (run (Event.play ::
        (List.replicate 35 Event.runIncScore ++
          Event.callback [resetCmd] :: List.replicate 24 Event.runIncScore))
        initState)).game.score = 25 ∧
    (step Event.runIncScore
      (run (Event.play ::
        (List.replicate 35 Event.runIncScore ++
          Event.callback [resetCmd] :: List.replicate 24 Event.runIncScore))
        initState)).spawnProb = 23 := by
  refine ⟨?_, ?_, ?_, ?_⟩ <;> decide

/-! ### C4: health and the RoundOver transition -/

/-- Round invariant: health capped at 3; while alive no Game_GameOver call
has happened this round; at health 0 exactly one has happened, the
receiver is unregistered and the spawn/shift task cancelled. -/
def RoundInv (s : GState) : Prop :=
  s.game.health ≤ 3 ∧
  (0 < s.game.health → s.gameOverCount = 0) ∧
  (s.game.health = 0 → s.gameOverCount = 1 ∧ s.receiverRegistered = false ∧
    s.tasks TaskId.genShift = false)

/-- RoundInv only reads health, the game-over count, the receiver flag and
the spawn/shift task, so any operation fixing those keeps it. -/
theorem roundInv_of_fields {s t : GState}
    (hh : t.game.health = s.game.health) (hc : t.gameOverCount = s.gameOverCount)
    (hr : t.receiverRegistered = s.receiverRegistered)
    (hg : t.tasks TaskId.genShift = s.tasks TaskId.genShift)
    (h : RoundInv s) : RoundInv t := by
  unfold RoundInv at h ⊢
  rw [hh, hc, hr, hg]
  exact h

/-- Collision resolution never raises health. -/
theorem collideAt_health_le (cx cy : Nat) (s : GState) :
    (collideAt cx cy s).game.health ≤ s.game.health := by
  rw [collideAt_game]
  show (if 0 < s.game.health then s.game.health - 1 else s.game.health) ≤ s.game.health
  split_ifs <;> omega

/-- Collision resolution from a live state keeps the round invariant: the
hit costs one health, and if that was the last one the queued UpdateHealth
fires GameOver exactly once. -/
theorem collideAt_round (cx cy : Nat) (s : GState) (hpos : 0 < s.game.health)
    (h : RoundInv s) : RoundInv (collideAt cx cy s) := by
  unfold collideAt updateHealthRun
  simp only [if_pos hpos]
  split_ifs with hz
  · refine ⟨?_, ?_, fun _ => ⟨?_, rfl, rfl⟩⟩
    · show s.game.health - 1 ≤ 3
      have := h.1
      omega
    · intro hp
      have hp2 : 0 < s.game.health - 1 := hp
      omega
    · show s.gameOverCount + 1 = 1
      rw [h.2.1 hpos]
  · refine ⟨?_, fun _ => h.2.1 hpos, fun h0 => absurd h0 hz⟩
    show s.game.health - 1 ≤ 3
    have := h.1
    omega

/-- One shift cell from a state whose dead-ship cell is not scheduled keeps
the invariant, and can zero the health only at the ship's own cell. -/
theorem shiftCell_round_detail (s : GState) (p : Nat × Nat) (h : RoundInv s)
    (hsafe : s.game.health = 0 → (s.game.x, s.game.y) ≠ p) :
    RoundInv (shiftCell s p) ∧
    ((shiftCell s p).game.health = 0 →
      s.game.health = 0 ∨ (s.game.x, s.game.y) = p) := by
  simp only [shiftCell]
  split_ifs with h0 h1 hc1 h2 hc2
  · exact ⟨h, fun hz => Or.inl hz⟩
  · by_cases hz : s.game.health = 0
    · exact absurd (Prod.ext_iff.mpr ⟨hc1.1, hc1.2⟩) (hsafe hz)
    · have hpos : 0 < s.game.health := Nat.pos_of_ne_zero hz
      exact ⟨collideAt_round p.1 p.2 _ hpos h,
        fun _ => Or.inr (Prod.ext_iff.mpr ⟨hc1.1, hc1.2⟩)⟩
  · exact ⟨h, fun hz => Or.inl hz⟩
  · by_cases hz : s.game.health = 0
    · exact absurd (Prod.ext_iff.mpr ⟨hc2.1, hc2.2⟩) (hsafe hz)
    · have hpos : 0 < s.game.health := Nat.pos_of_ne_zero hz
      exact ⟨collideAt_round p.1 p.2 _ hpos h,
        fun _ => Or.inr (Prod.ext_iff.mpr ⟨hc2.1, hc2.2⟩)⟩
  · exact ⟨h, fun hz => Or.inl hz⟩
  · exact ⟨h, fun hz => Or.inl hz⟩

/-- The shift pass visits each cell once (Nodup), the ship sits on at most
one of them, and a dead ship implies its cell is not in the remaining
pass, so the pass keeps the round invariant — in particular it cannot fire
a second GameOver. -/
theorem shift_fold_round (l : List (Nat × Nat)) :
    ∀ s : GState, l.Nodup → RoundInv s →
      (s.game.health = 0 → (s.game.x, s.game.y) ∉ l) →
      RoundInv (l.foldl shiftCell s) := by
  induction l with
  | nil => exact fun s _ h _ => h
  | cons p tl ih =>
    intro s hnd h hmem
    rw [List.foldl_cons]
    obtain ⟨hpn, htl⟩ := List.nodup_cons.mp hnd
    have hsafe : s.game.health = 0 → (s.game.x, s.game.y) ≠ p := by
      intro h0 heq
      exact (hmem h0) (heq ▸ List.mem_cons_self p tl)
    obtain ⟨hinv2, hdmg⟩ := shiftCell_round_detail s p h hsafe
    refine ih (shiftCell s p) htl hinv2 ?_
    intro h0
    rw [(shiftCell_game_frame s p).1, (shiftCell_game_frame s p).2.1]
    rcases hdmg h0 with hold | hpe
    · intro hmem2
      exact (hmem hold) (List.mem_cons_of_mem p hmem2)
    · rw [hpe]
      exact hpn

/-- The move handlers from a live state keep the round invariant. -/
theorem moves_round (s : GState) (hpos : 0 < s.game.health) (h : RoundInv s) :
    RoundInv (moveRight s) ∧ RoundInv (moveLeft s) ∧
    RoundInv (moveUp s) ∧ RoundInv (moveDown s) := by
  refine ⟨?_, ?_, ?_, ?_⟩ <;>
    · simp only [moveRight, moveLeft, moveUp, moveDown]
      split_ifs <;> first | exact h | exact collideAt_round _ _ _ hpos h

/-- Shoot keeps the round invariant. -/
theorem shoot_round (s : GState) (h : RoundInv s) : RoundInv (shoot s) := by
  by_cases hcd : 3 ≤ s.game.shotCooldown
  · cases hf : findSlot s.shots with
    | none => rw [shoot_no_slot s hf]; exact h
    | some i =>
      obtain ⟨hcd3, hsf, hsc, hhl, hx, hy, hsi, hsj, hti, htj, hgs, his, hrv, hsp, hgc⟩ :=
        shoot_success s i hcd hf
      exact roundInv_of_fields hhl hgc hrv hgs h
  · rw [shoot_low_cd s (by omega)]; exact h

/-- Every non-start event keeps the round invariant; once health is 0 the
receiver is gone and the spawn/shift task cancelled, so no damage source
remains and no second GameOver can fire. -/
theorem step_round (e : Event) (s : GState) (he : notPlay e = true) (h : RoundInv s) :
    RoundInv (step e s) := by
  cases e with
  | play => simp [notPlay] at he
  | input c =>
    simp only [step]
    split_ifs with hr
    · have hpos : 0 < s.game.health := by
        rcases Nat.eq_zero_or_pos s.game.health with hz | hp
        · rw [(h.2.2 hz).2.1] at hr
          cases hr
        · exact hp
      unfold receiverDispatch
      split_ifs
      · exact (moves_round s hpos h).2.1
      · exact (moves_round s hpos h).1
      · exact (moves_round s hpos h).2.2.1
      · exact (moves_round s hpos h).2.2.2
      · exact shoot_round s h
      · exact h
    · exact h
  | runGenShift chk ty =>
    simp only [step]
    split_ifs with ht
    · have hpos : 0 < s.game.health := by
        rcases Nat.eq_zero_or_pos s.game.health with hz | hp
        · rw [(h.2.2 hz).2.2] at ht
          cases ht
        · exact hp
      show RoundInv (generateAndShift chk ty s)
      unfold generateAndShift shiftColumns
      refine shift_fold_round shiftPairs (generateColumn chk ty s) shiftPairs_nodup
        (roundInv_of_fields rfl rfl rfl rfl h) ?_
      intro h0
      exact absurd h0 (by show s.game.health ≠ 0; omega)
    · exact h
  | runIncScore =>
    simp only [step]
    split_ifs with ht
    · exact roundInv_of_fields rfl rfl rfl rfl h
    · exact h
  | runMoveShot i =>
    simp only [step]
    split_ifs with ht
    · have hf := moveRightShot_frame i s
      exact roundInv_of_fields hf.2.1 hf.2.2.2.2.2.1 hf.2.2.2.2.1 hf.2.2.2.2.2.2.1 h
    · exact h
  | runDecCooldown =>
    simp only [step]
    split_ifs with ht
    · unfold decreaseCooldown
      split_ifs with hlt
      · exact roundInv_of_fields rfl rfl rfl rfl h
      · exact roundInv_of_fields rfl rfl rfl (by simp [tRemove]) h
    · exact h
  | runResetColor =>
    simp only [step]
    split_ifs with ht
    · exact roundInv_of_fields rfl rfl rfl (by simp [tRemove]) h
    · exact h
  | callback args =>
    simp only [step]
    have hf := callbackRun_frame args s
    exact roundInv_of_fields hf.2.1 hf.2.2.2.2.2.2.2.2
      hf.2.2.2.2.2.2.1 (congrFun hf.2.2.2.2.2.1 TaskId.genShift) h

/-- One shift cell never raises health. -/
theorem shiftCell_health_le (s : GState) (p : Nat × Nat) :
    (shiftCell s p).game.health ≤ s.game.health := by
  simp only [shiftCell]
  split_ifs <;> first | exact le_refl _ | exact collideAt_health_le _ _ _

/-- Shoot leaves health unchanged. -/
theorem shoot_health (s : GState) : (shoot s).game.health = s.game.health := by
  by_cases hcd : 3 ≤ s.game.shotCooldown
  · cases hf : findSlot s.shots with
    | none => rw [shoot_no_slot s hf]
    | some i =>
      obtain ⟨hcd3, hsf, hsc, hhl, hx, hy, hsi, hsj, hti, htj, hgs, his, hrv, hsp, hgc⟩ :=
        shoot_success s i hcd hf
      exact hhl
  · rw [shoot_low_cd s (by omega)]

/-- Within a round (no restart) no event ever raises health, so health can
reach 0 at most once. -/
theorem step_health_le (e : Event) (s : GState) (he : notPlay e = true) :
    (step e s).game.health ≤ s.game.health := by
  cases e with
  | play => simp [notPlay] at he
  | input c =>
    simp only [step]
    split_ifs with hr
    · unfold receiverDispatch
      split_ifs
      · simp only [moveLeft]
        split_ifs <;> first | exact le_refl _ | exact collideAt_health_le _ _ _
      · simp only [moveRight]
        split_ifs <;> first | exact le_refl _ | exact collideAt_health_le _ _ _
      · simp only [moveUp]
        split_ifs <;> first | exact le_refl _ | exact collideAt_health_le _ _ _
      · simp only [moveDown]
        split_ifs <;> first | exact le_refl _ | exact collideAt_health_le _ _ _
      · rw [shoot_health]
      · exact le_refl _
    · exact le_refl _
  | runGenShift chk ty =>
    simp only [step]
    split_ifs with ht
    · show (generateAndShift chk ty s).game.health ≤ s.game.health
      unfold generateAndShift shiftColumns
      exact foldl_preserve (fun t => t.game.health ≤ s.game.health) shiftCell
        (fun x p hx => le_trans (shiftCell_health_le x p) hx)
        shiftPairs (generateColumn chk ty s) (le_refl _)
    · exact le_refl _
  | runIncScore =>
    simp only [step]
    split_ifs with ht
    · rw [(increaseScore_frame s).2.1]
    · exact le_refl _
  | runMoveShot i =>
    simp only [step]
    split_ifs with ht
    · rw [(moveRightShot_frame i s).2.1]
    · exact le_refl _
  | runDecCooldown =>
    simp only [step]
    split_ifs with ht
    · unfold decreaseCooldown
      split_ifs <;> exact le_refl _
    · exact le_refl _
  | runResetColor =>
    simp only [step]
    split_ifs with ht <;> exact le_refl _
  | callback args =>
    simp only [step]
    rw [(callbackRun_frame args s).2.1]

/-- C4: from the start command on, through any sequence of in-round events,
health stays in [0,3]; while health is positive no RoundOver has fired;
the moment health reaches 0 exactly one RoundOver (Game_GameOver) has
fired, the input receiver is unregistered and the spawn/shift task is
cancelled — removing every damage source, so no further collision or
damage processing happens and no second transition can fire; and no
in-round event ever raises health, so 0 is reached at most once. -/
theorem health_round_claims (s0 : GState) (evs : List Event) (e : Event)
    (h1 : forall x, x ∈ evs -> notPlay x = true) (he : notPlay e = true) :
    (run evs (step Event.play s0)).game.health ≤ 3 ∧
    (0 < (run evs (step Event.play s0)).game.health →
      (run evs (step Event.play s0)).gameOverCount = 0) ∧
    ((run evs (step Event.play s0)).game.health = 0 →
      (run evs (step Event.play s0)).gameOverCount = 1 ∧
      (run evs (step Event.play s0)).receiverRegistered = false ∧
      (run evs (step Event.play s0)).tasks TaskId.genShift = false) ∧
    (step e (run evs (step Event.play s0))).game.health ≤
      (run evs (step Event.play s0)).game.health := by
  have hbase : RoundInv (step Event.play s0) := by
    refine ⟨?_, fun _ => rfl, fun h0 => ?_⟩
    · show (3 : Nat) ≤ 3
      exact le_refl 3
    · exact absurd h0 (by norm_num [step, play])
  have hinv : RoundInv (run evs (step Event.play s0)) :=
    foldl_preserve_mem RoundInv notPlay (fun t x => step x t)
      (fun x b hb hx => step_round b x hb hx) evs (step Event.play s0) h1 hbase
  exact ⟨hinv.1, hinv.2.1, hinv.2.2, step_health_le e _ he⟩

/-- Witness: the fresh round itself — health 3, no RoundOver yet, and a
score tick does not raise health. -/
theorem health_round_claims_witness :
    (run [] (step Event.play initState)).game.health ≤ 3 ∧
    (0 < (run [] (step Event.play initState)).game.health →
      (run [] (step Event.play initState)).gameOverCount = 0) ∧
    ((run [] (step Event.play initState)).game.health = 0 →
      (run [] (step Event.play initState)).gameOverCount = 1 ∧
      (run [] (step Event.play initState)).receiverRegistered = false ∧
      (run [] (step Event.play initState)).tasks TaskId.genShift = false) ∧
    (step Event.runIncScore (run [] (step Event.play initState))).game.health ≤
      (run [] (step Event.play initState)).game.health :=
  health_round_claims initState [] Event.runIncScore
    (by intro x hx; cases hx) rfl

end AsteroidsGame
